import Mathlib

/-!
Shallow embedding of the `zenhub` command-line client's issue retrieval,
filtering and aggregation core (`src/main.rs`).

The HTTP layer is abstracted away: `read_issues` here receives the decoded
issue list `res` (the value the source obtains from the `/issues` endpoint)
and performs exactly the pure part of the source's `read_issues`: building
the deduplicated repository-id scope, filtering by the
`ZenhubIssuesFilter`, accumulating the estimate total and the
not-estimated count, and selecting the report title.

Numeric fidelity: the source's `f32` estimates are modelled as exact
rationals (`ℚ`, accumulated left-to-right in list order, as the source
does), `i32` counters as `Int`, and `u64`/`u32` identifiers as `Nat`.
-/

namespace Zenhub

/-- Mirrors the source struct `ZenhubRepository` (fields `gh_id`, `name`,
`owner_name`). -/
structure ZenhubRepository where
  gh_id : Nat
  name : String
  owner_name : String
deriving DecidableEq

/-- Mirrors the source struct `ZenhubIssue` (fields `issue_number`, `repo_id`). -/
structure ZenhubIssue where
  issue_number : Nat
  repo_id : Nat
deriving DecidableEq

/-- Mirrors the source struct `ZenhubAssignee`. -/
structure ZenhubAssignee where
  html_url : Option String
  avatar_url : Option String
  login : String
  id : Nat
deriving DecidableEq

/-- Mirrors the source struct `ZenhubLabel`. -/
structure ZenhubLabel where
  color : Option String
  name : String
  id : Option Nat
deriving DecidableEq

/-- Mirrors the source struct `ZenhubMilestone`. -/
structure ZenhubMilestone where
  state : String
  number : Nat
  title : String
  due_on : Option String
  id : Nat
  updated_at : Option String
deriving DecidableEq

/-- Mirrors the source struct `ZenhubPipeline`. The source field `_id` is
rendered as `mongo_id`. -/
structure ZenhubPipeline where
  name : String
  description : Option String
  mongo_id : String
  issues : Option (List ZenhubIssue)
deriving DecidableEq

/-- Mirrors the source struct `ZenhubIssueInfo`, the central issue record.
Timestamps are opaque strings; `estimate` is optional (absence means "not
estimated", distinct from an estimate of `0`). -/
structure ZenhubIssueInfo where
  assignee : Option ZenhubAssignee
  assignees : List ZenhubAssignee
  created_at : String
  closed_at : Option String
  estimate : Option ℚ
  html_url : String
  is_epic : Bool
  labels : List ZenhubLabel
  milestone : Option ZenhubMilestone
  number : Option Nat
  repo_name : String
  organization_name : Option String
  parent_epics : List ZenhubIssue
  state : String
  title : String
  updated_at : Option String
  user : Option ZenhubAssignee
  issue_number : Nat
  pipeline : Option ZenhubPipeline
deriving DecidableEq

/-- Mirrors the source struct `ZenhubIssuesFilter`. -/
structure ZenhubIssuesFilter where
  by_assignee : Option String
  by_pipeline_name : Option String
deriving DecidableEq

/-- Mirrors the source struct `ZenhubPipelineInfo` (the report record):
`title`, matched `list`, accumulated `estimate`, `not_estimated` count. -/
structure ZenhubPipelineInfo where
  title : String
  list : List ZenhubIssueInfo
  estimate : ℚ
  not_estimated : Int
deriving DecidableEq

/-- The predicate inside the source's `.filter(|x| ...)` closure in
`read_issues` (src/main.rs lines 258-273), without its aggregate side
effects: `m` starts `true`; if `filter.by_assignee` is present the issue
must carry an assignee whose `login` equals it, else `m = false`; if
`filter.by_pipeline_name` is present the issue must carry a pipeline whose
`name` equals it, else `m = false`. -/
def matchesFilter (filter : ZenhubIssuesFilter) (x : ZenhubIssueInfo) : Bool :=
  let m0 := true
  let m1 :=
    match filter.by_assignee with
    | some by_assignee =>
      match x.assignee with
      | some assignee => m0 && (assignee.login == by_assignee)
      | none => false
    | none => m0
  let m2 :=
    match filter.by_pipeline_name with
    | some by_pipeline_name =>
      match x.pipeline with
      | some pipeline => m1 && (pipeline.name == by_pipeline_name)
      | none => false
    | none => m1
  m2

/-- The source's filter loop (src/main.rs lines 253-283) made explicit:
walks the fetched list left to right carrying the mutable `estimate`,
`not_estimated` and the collected filtered issues; for every matching
issue, a present estimate is added to `estimate` and an absent one bumps
`not_estimated`, and the issue is appended to the output. -/
def filterAggregateAux (filter : ZenhubIssuesFilter) :
    ℚ → Int → List ZenhubIssueInfo → List ZenhubIssueInfo →
    List ZenhubIssueInfo × ℚ × Int
  | e, n, acc, [] => (acc.reverse, e, n)
  | e, n, acc, x :: xs =>
    if matchesFilter filter x then
      match x.estimate with
      | some v => filterAggregateAux filter (e + v) n (x :: acc) xs
      | none => filterAggregateAux filter e (n + 1) (x :: acc) xs
    else
      filterAggregateAux filter e n acc xs

/-- The pure core of the source's `read_issues` (src/main.rs lines
222-294): `res` stands for the issue list decoded from the HTTP response;
the function filters it, accumulates the aggregates, and picks the title
(`by_pipeline_name` when present, else `"Issues"`). -/
def read_issues (res : List ZenhubIssueInfo) (filter : ZenhubIssuesFilter) :
    ZenhubPipelineInfo :=
  let r := filterAggregateAux filter 0 0 [] res
  { title :=
      match filter.by_pipeline_name with
      | some pipeline_name => pipeline_name
      | none => "Issues"
    list := r.1
    estimate := r.2.1
    not_estimated := r.2.2 }

/-- The repository-id scope of the source's `read_issues` (src/main.rs
lines 227-230): each `gh_id` is rendered in decimal (`format!` is
`Nat.repr`) and the results collected into a `HashSet`. The set is
modelled as the `dedup` of the list: same elements, no duplicates (the
source's `HashSet` iteration order is unspecified; the model fixes one). -/
def scope_ids (repositories : List ZenhubRepository) : List String :=
  (repositories.map (fun x => Nat.repr x.gh_id)).dedup

/-- The serialized scope (src/main.rs line 231): the id strings joined
with `","`. -/
def ids_str (repositories : List ZenhubRepository) : String :=
  String.intercalate "," (scope_ids repositories)

/-- Specification-side characterization: the issues of `res` that match
`filter`, in order. -/
def matchedIssues (filter : ZenhubIssuesFilter) (res : List ZenhubIssueInfo) :
    List ZenhubIssueInfo :=
  res.filter (matchesFilter filter)

/-- Specification-side characterization: the present estimates of a list
of issues, in order. -/
def estimatesOf (l : List ZenhubIssueInfo) : List ℚ :=
  l.filterMap (fun x => x.estimate)

/-- Specification-side characterization: how many issues of the list have
no estimate. -/
def unestimatedOf (l : List ZenhubIssueInfo) : Nat :=
  (l.filter (fun x => x.estimate.isNone)).length

/-- Characterization of the aggregate loop: it returns the accumulator
followed by the matching issues in order, the starting estimate plus the
sum of the present estimates of the matching issues, and the starting
count plus the number of matching issues with no estimate. -/
theorem filterAggregateAux_spec (filter : ZenhubIssuesFilter)
    (xs : List ZenhubIssueInfo) :
    ∀ (e : ℚ) (n : Int) (acc : List ZenhubIssueInfo),
      filterAggregateAux filter e n acc xs =
        (acc.reverse ++ matchedIssues filter xs,
         e + (estimatesOf (matchedIssues filter xs)).sum,
         n + (unestimatedOf (matchedIssues filter xs) : Int)) := by
  induction xs with
  | nil =>
    intro e n acc
    simp [filterAggregateAux, matchedIssues, estimatesOf, unestimatedOf]
  | cons x xs ih =>
    intro e n acc
    cases hm : matchesFilter filter x with
    | false =>
      simp [filterAggregateAux, hm, ih, matchedIssues]
    | true =>
      cases he : x.estimate with
      | none =>
        simp only [filterAggregateAux, hm, if_true, he, ih]
        simp [matchedIssues, estimatesOf, unestimatedOf, hm, he, add_assoc,
          add_comm]
      | some v =>
        simp only [filterAggregateAux, hm, if_true, he, ih]
        simp [matchedIssues, estimatesOf, unestimatedOf, hm, he, add_assoc]

/-- The report produced by `read_issues`: the list is the ordered
sublist of matching issues, the aggregates are the sum of present
estimates and the count of absent ones over that list. -/
theorem read_issues_spec (res : List ZenhubIssueInfo)
    (filter : ZenhubIssuesFilter) :
    (read_issues res filter).list = matchedIssues filter res ∧
    (read_issues res filter).estimate =
      (estimatesOf (matchedIssues filter res)).sum ∧
    (read_issues res filter).not_estimated =
      (unestimatedOf (matchedIssues filter res) : Int) := by
  simp [read_issues, filterAggregateAux_spec]

/-- Unfolding of the filter predicate: an issue passes exactly when every
present filter field is met by the corresponding present issue field. -/
theorem matchesFilter_iff (filter : ZenhubIssuesFilter) (x : ZenhubIssueInfo) :
    matchesFilter filter x = true ↔
      (∀ a, filter.by_assignee = some a →
        ∃ assignee, x.assignee = some assignee ∧ assignee.login = a) ∧
      (∀ p, filter.by_pipeline_name = some p →
        ∃ pipeline, x.pipeline = some pipeline ∧ pipeline.name = p) := by
  unfold matchesFilter
  cases hba : filter.by_assignee <;> cases hbp : filter.by_pipeline_name <;>
    cases ha : x.assignee <;> cases hp : x.pipeline <;> simp

/-- Splitting a list of issues by presence of the estimate preserves the
total length. -/
theorem length_filter_estimate_split (l : List ZenhubIssueInfo) :
    l.length = (l.filter (fun x => x.estimate.isSome)).length
      + (l.filter (fun x => x.estimate.isNone)).length := by
  induction l with
  | nil => simp
  | cons x xs ih => cases hx : x.estimate <;> simp [hx, ih] <;> omega

/-- Claim C1: the returned `estimate` is the sum, in input order, of the
present estimates over exactly the matched issues; `not_estimated` counts
the matched issues with no estimate; and the matched list's length is the
count of matched estimated issues plus `not_estimated`, so each matching
issue feeds exactly one of the two aggregates exactly once. -/
theorem read_issues_aggregates_exact (res : List ZenhubIssueInfo)
    (filter : ZenhubIssuesFilter) :
    (read_issues res filter).estimate =
      (estimatesOf (matchedIssues filter res)).sum ∧
    (read_issues res filter).not_estimated =
      (unestimatedOf (matchedIssues filter res) : Int) ∧
    ((read_issues res filter).list.length : Int) =
      (((matchedIssues filter res).filter
          (fun x => x.estimate.isSome)).length : Int)
        + (read_issues res filter).not_estimated := by
  obtain ⟨h1, h2, h3⟩ := read_issues_spec res filter
  refine ⟨h2, h3, ?_⟩
  rw [h1, h3, unestimatedOf]
  have := length_filter_estimate_split (matchedIssues filter res)
  omega

/-- Claim C2: when `by_assignee` is present, every issue in the returned
list carries an assignee whose login is exactly the requested one; issues
with no assignee or with a different login are excluded. -/
theorem read_issues_by_assignee_matched (res : List ZenhubIssueInfo)
    (filter : ZenhubIssuesFilter) (a : String) (x : ZenhubIssueInfo)
    (hf : filter.by_assignee = some a)
    (hx : x ∈ (read_issues res filter).list) :
    ∃ assignee, x.assignee = some assignee ∧ assignee.login = a := by
  obtain ⟨h1, -, -⟩ := read_issues_spec res filter
  rw [h1, matchedIssues] at hx
  have hm := (List.mem_filter.mp hx).2
  exact ((matchesFilter_iff filter x).mp hm).1 a hf

/-- Claim C3: when `by_pipeline_name` is present, every issue in the
returned list carries a pipeline whose name is exactly the requested one;
an issue with no pipeline is excluded whatever its other fields. -/
theorem read_issues_by_pipeline_matched (res : List ZenhubIssueInfo)
    (filter : ZenhubIssuesFilter) (p : String) (x : ZenhubIssueInfo)
    (hf : filter.by_pipeline_name = some p)
    (hx : x ∈ (read_issues res filter).list) :
    ∃ pipeline, x.pipeline = some pipeline ∧ pipeline.name = p := by
  obtain ⟨h1, -, -⟩ := read_issues_spec res filter
  rw [h1, matchedIssues] at hx
  have hm := (List.mem_filter.mp hx).2
  exact ((matchesFilter_iff filter x).mp hm).2 p hf

/-- Claim C4: the returned list is exactly the matching issues of the
input kept as an ordered sublist (filtering never reorders), and the empty
filter returns the input unchanged. -/
theorem read_issues_preserves_order (res : List ZenhubIssueInfo)
    (filter : ZenhubIssuesFilter) :
    (read_issues res filter).list = res.filter (matchesFilter filter) ∧
    (read_issues res filter).list.Sublist res ∧
    (filter.by_assignee = none → filter.by_pipeline_name = none →
      (read_issues res filter).list = res) := by
  obtain ⟨h1, -, -⟩ := read_issues_spec res filter
  rw [matchedIssues] at h1
  refine ⟨h1, ?_, ?_⟩
  · rw [h1]
    exact List.filter_sublist res
  · intro ha hp
    rw [h1]
    have hall : ∀ x ∈ res, matchesFilter filter x = true := by
      intro x _
      simp [matchesFilter, ha, hp]
    exact List.filter_eq_self.mpr hall

/-- Claim C6: the report title is the filter's `by_pipeline_name` when
present and the fixed label `"Issues"` when absent, for every input list
(so regardless of how many issues matched, including zero). -/
theorem read_issues_title_rule (res : List ZenhubIssueInfo)
    (filter : ZenhubIssuesFilter) :
    (∀ p, filter.by_pipeline_name = some p →
      (read_issues res filter).title = p) ∧
    (filter.by_pipeline_name = none →
      (read_issues res filter).title = "Issues") := by
  constructor
  · intro p hp
    simp [read_issues, hp]
  · intro hp
    simp [read_issues, hp]

/-- Claim C8: with `by_assignee` present, two issues identical except in
their `assignees` list are classified identically: same match verdict and
the same aggregates when each is run through the filter. -/
theorem read_issues_ignores_assignees_list (filter : ZenhubIssuesFilter)
    (x y : ZenhubIssueInfo) (_hf : filter.by_assignee.isSome)
    (hxy : y = { x with assignees := y.assignees }) :
    matchesFilter filter y = matchesFilter filter x ∧
    (read_issues [y] filter).estimate = (read_issues [x] filter).estimate ∧
    (read_issues [y] filter).not_estimated =
      (read_issues [x] filter).not_estimated ∧
    (read_issues [y] filter).list.length =
      (read_issues [x] filter).list.length := by
  have hmatch : matchesFilter filter y = matchesFilter filter x := by
    rw [hxy]
    unfold matchesFilter
    rfl
  have hest : y.estimate = x.estimate := by
    rw [hxy]
  obtain ⟨ly, ey, ny⟩ := read_issues_spec [y] filter
  obtain ⟨lx, ex, nx⟩ := read_issues_spec [x] filter
  refine ⟨hmatch, ?_, ?_, ?_⟩
  · rw [ey, ex]
    cases hpx : matchesFilter filter x <;> cases hex : x.estimate <;>
      simp [matchedIssues, estimatesOf, hmatch, hest, hpx, hex]
  · rw [ny, nx]
    cases hpx : matchesFilter filter x <;> cases hex : x.estimate <;>
      simp [matchedIssues, unestimatedOf, hmatch, hest, hpx, hex]
  · rw [ly, lx]
    cases hpx : matchesFilter filter x <;>
      simp [matchedIssues, hmatch, hpx]

/-- Claim C9: a matching issue whose estimate is present with value `0` is
treated as estimated: prepending it leaves `not_estimated` unchanged, adds
`0` to the estimate total, and puts the issue at the head of the matched
list. -/
theorem read_issues_zero_estimate_counts (filter : ZenhubIssuesFilter)
    (x : ZenhubIssueInfo) (res : List ZenhubIssueInfo)
    (hm : matchesFilter filter x = true) (h0 : x.estimate = some 0) :
    (read_issues (x :: res) filter).not_estimated =
      (read_issues res filter).not_estimated ∧
    (read_issues (x :: res) filter).estimate =
      (read_issues res filter).estimate ∧
    (read_issues (x :: res) filter).list =
      x :: (read_issues res filter).list := by
  obtain ⟨l1, e1, n1⟩ := read_issues_spec (x :: res) filter
  obtain ⟨l2, e2, n2⟩ := read_issues_spec res filter
  rw [l1, e1, n1, l2, e2, n2]
  simp [matchedIssues, estimatesOf, unestimatedOf, hm, h0]

/-- Claim C10: re-applying the same filter to the matched output list
returns that list again with the same aggregates. -/
theorem read_issues_idempotent (res : List ZenhubIssueInfo)
    (filter : ZenhubIssuesFilter) :
    (read_issues (read_issues res filter).list filter).list =
      (read_issues res filter).list ∧
    (read_issues (read_issues res filter).list filter).estimate =
      (read_issues res filter).estimate ∧
    (read_issues (read_issues res filter).list filter).not_estimated =
      (read_issues res filter).not_estimated := by
  have hidem : matchedIssues filter (matchedIssues filter res)
      = matchedIssues filter res := by
    simp [matchedIssues, List.filter_filter]
  obtain ⟨l1, e1, n1⟩ := read_issues_spec (read_issues res filter).list filter
  obtain ⟨l2, e2, n2⟩ := read_issues_spec res filter
  rw [l2] at l1 e1 n1
  exact ⟨by rw [l2, l1, hidem], by rw [l2, e1, hidem, e2],
    by rw [l2, n1, hidem, n2]⟩

/-- Test fixture: the assignee `alice`. -/
def aliceAssignee : ZenhubAssignee :=
  { html_url := none, avatar_url := none, login := "alice", id := 1 }

/-- Test fixture: the `Backlog` pipeline. -/
def backlogPipeline : ZenhubPipeline :=
  { name := "Backlog", description := none, mongo_id := "p1", issues := none }

/-- Test fixture: an issue assigned to `alice` in `Backlog` with estimate 2. -/
def issueAlice : ZenhubIssueInfo :=
  { assignee := some aliceAssignee, assignees := [aliceAssignee],
    created_at := "2020-01-01", closed_at := none, estimate := some 2,
    html_url := "u", is_epic := false, labels := [], milestone := none,
    number := some 1, repo_name := "repo", organization_name := none,
    parent_epics := [], state := "open", title := "t", updated_at := none,
    user := none, issue_number := 1, pipeline := some backlogPipeline }

/-- Test fixture: `issueAlice` with a zero estimate. -/
def issueZeroEstimate : ZenhubIssueInfo := { issueAlice with estimate := some 0 }

/-- Test fixture: `issueAlice` with a longer `assignees` list. -/
def issueMoreAssignees : ZenhubIssueInfo :=
  { issueAlice with assignees := [aliceAssignee, aliceAssignee] }

/-- Witness for claim C2 at a concrete issue and filter. -/
theorem read_issues_by_assignee_matched_witness :
    ∃ assignee, issueAlice.assignee = some assignee ∧
      assignee.login = "alice" :=
  read_issues_by_assignee_matched [issueAlice] ⟨some "alice", none⟩ "alice"
    issueAlice rfl (by decide)

/-- Witness for claim C3 at a concrete issue and filter. -/
theorem read_issues_by_pipeline_matched_witness :
    ∃ pipeline, issueAlice.pipeline = some pipeline ∧
      pipeline.name = "Backlog" :=
  read_issues_by_pipeline_matched [issueAlice] ⟨none, some "Backlog"⟩
    "Backlog" issueAlice rfl (by decide)

/-- Witness for claim C4: the empty filter is the identity on a concrete
list. -/
theorem read_issues_preserves_order_witness :
    (read_issues [issueAlice] ⟨none, none⟩).list = [issueAlice] :=
  (read_issues_preserves_order [issueAlice] ⟨none, none⟩).2.2 rfl rfl

/-- Witness for claim C6 at concrete filters. -/
theorem read_issues_title_rule_witness :
    (read_issues [] ⟨none, some "Done"⟩).title = "Done" ∧
    (read_issues [] ⟨none, none⟩).title = "Issues" :=
  ⟨(read_issues_title_rule [] ⟨none, some "Done"⟩).1 "Done" rfl,
   (read_issues_title_rule [] ⟨none, none⟩).2 rfl⟩

/-- Witness for claim C8 at two concrete issues differing only in the
`assignees` list. -/
theorem read_issues_ignores_assignees_list_witness :
    matchesFilter ⟨some "alice", none⟩ issueMoreAssignees =
      matchesFilter ⟨some "alice", none⟩ issueAlice ∧
    (read_issues [issueMoreAssignees] ⟨some "alice", none⟩).estimate =
      (read_issues [issueAlice] ⟨some "alice", none⟩).estimate ∧
    (read_issues [issueMoreAssignees] ⟨some "alice", none⟩).not_estimated =
      (read_issues [issueAlice] ⟨some "alice", none⟩).not_estimated ∧
    (read_issues [issueMoreAssignees] ⟨some "alice", none⟩).list.length =
      (read_issues [issueAlice] ⟨some "alice", none⟩).list.length :=
  read_issues_ignores_assignees_list ⟨some "alice", none⟩ issueAlice
    issueMoreAssignees (by decide) rfl

/-- Witness for claim C9 at a concrete zero-estimate issue. -/
theorem read_issues_zero_estimate_counts_witness :
    (read_issues [issueZeroEstimate] ⟨none, none⟩).not_estimated =
      (read_issues [] ⟨none, none⟩).not_estimated ∧
    (read_issues [issueZeroEstimate] ⟨none, none⟩).estimate =
      (read_issues [] ⟨none, none⟩).estimate ∧
    (read_issues [issueZeroEstimate] ⟨none, none⟩).list =
      issueZeroEstimate :: (read_issues [] ⟨none, none⟩).list :=
  read_issues_zero_estimate_counts ⟨none, none⟩ issueZeroEstimate []
    (by decide) rfl

/-- With enough fuel, the core decimal printer emits the base-`b` digits
of a positive number, most significant first, in front of the
accumulator. -/
theorem toDigitsCore_eq_digits (b : Nat) (hb : 1 < b) :
    ∀ (fuel n : Nat) (acc : List Char), 0 < n → n ≤ fuel →
      Nat.toDigitsCore b fuel n acc =
        ((Nat.digits b n).map Nat.digitChar).reverse ++ acc := by
  intro fuel
  induction fuel with
  | zero =>
    intro n acc hn hnf
    omega
  | succ f ih =>
    intro n acc hn hnf
    rw [Nat.toDigitsCore]
    by_cases hq : n / b = 0
    · simp only [hq, if_pos rfl, if_true, reduceIte]
      rw [Nat.digits_def' hb hn, hq]
      simp
    · simp only [hq, if_false, reduceIte]
      have hlt : n / b < n := Nat.div_lt_self hn hb
      rw [ih (n / b) (Nat.digitChar (n % b) :: acc) (Nat.pos_of_ne_zero hq)
          (by omega),
        Nat.digits_def' hb hn]
      simp

/-- For a positive number, `Nat.repr` is the string of the decimal digits
in display order. -/
theorem repr_pos_eq (n : Nat) (hn : 0 < n) :
    Nat.repr n = (((Nat.digits 10 n).map Nat.digitChar).reverse).asString := by
  rw [Nat.repr, Nat.toDigits,
    toDigitsCore_eq_digits 10 (by norm_num) (n + 1) n [] hn (by omega)]
  simp

/-- The digit characters of the sixteen possible digit values are
pairwise distinct below base ten. -/
theorem digitChar_inj_lt_ten :
    ∀ d < 10, ∀ e < 10, Nat.digitChar d = Nat.digitChar e → d = e := by
  decide

/-- Mapping `Nat.digitChar` over lists of decimal digits is injective. -/
theorem map_digitChar_inj : ∀ (l1 l2 : List Nat),
    (∀ d ∈ l1, d < 10) → (∀ d ∈ l2, d < 10) →
    l1.map Nat.digitChar = l2.map Nat.digitChar → l1 = l2 := by
  intro l1
  induction l1 with
  | nil =>
    intro l2 _ _ h
    cases l2 <;> simp_all
  | cons d l ih =>
    intro l2 h1 h2 h
    cases l2 with
    | nil => simp_all
    | cons e l2' =>
      simp only [List.map_cons, List.cons.injEq] at h
      have hd : d = e :=
        digitChar_inj_lt_ten d (h1 d (by simp)) e (h2 e (by simp)) h.1
      rw [hd,
        ih l2' (fun a ha => h1 a (by simp [ha])) (fun a ha => h2 a (by simp [ha])) h.2]

/-- Packing a character list into a string is injective. -/
theorem asString_inj (l1 l2 : List Char) (h : l1.asString = l2.asString) :
    l1 = l2 := by
  simpa [List.asString] using congrArg String.data h

/-- The decimal rendering used for repository ids is injective: distinct
ids yield distinct strings. -/
theorem repr_injective : Function.Injective Nat.repr := by
  intro m n h
  have hd10 : ∀ k : Nat, ∀ d ∈ Nat.digits 10 k, d < 10 := fun k d hd =>
    Nat.digits_lt_base (by norm_num) hd
  rcases Nat.eq_zero_or_pos m with hm | hm <;>
    rcases Nat.eq_zero_or_pos n with hn | hn
  · omega
  · exfalso
    subst hm
    rw [repr_pos_eq n hn] at h
    have hchars := asString_inj _ _ h.symm
    have hmap : (Nat.digits 10 n).map Nat.digitChar = [Nat.digitChar 0] := by
      have h0 : Nat.toDigits 10 0 = [Nat.digitChar 0] := rfl
      have := congrArg List.reverse hchars
      simpa [h0] using this
    have hdig : Nat.digits 10 n = [0] :=
      map_digitChar_inj (Nat.digits 10 n) [0] (hd10 n)
        (by intro d hd; simp at hd; omega) hmap
    have := Nat.ofDigits_digits 10 n
    rw [hdig] at this
    simp [Nat.ofDigits] at this
    omega
  · exfalso
    subst hn
    rw [repr_pos_eq m hm] at h
    have hchars := asString_inj _ _ h
    have hmap : (Nat.digits 10 m).map Nat.digitChar = [Nat.digitChar 0] := by
      have h0 : Nat.toDigits 10 0 = [Nat.digitChar 0] := rfl
      have := congrArg List.reverse hchars
      simpa [h0] using this
    have hdig : Nat.digits 10 m = [0] :=
      map_digitChar_inj (Nat.digits 10 m) [0] (hd10 m)
        (by intro d hd; simp at hd; omega) hmap
    have := Nat.ofDigits_digits 10 m
    rw [hdig] at this
    simp [Nat.ofDigits] at this
    omega
  · rw [repr_pos_eq m hm, repr_pos_eq n hn] at h
    have hchars := asString_inj _ _ h
    have hmap : (Nat.digits 10 m).map Nat.digitChar
        = (Nat.digits 10 n).map Nat.digitChar := by
      have := congrArg List.reverse hchars
      simpa using this
    exact Nat.digits.injective 10
      (map_digitChar_inj (Nat.digits 10 m) (Nat.digits 10 n)
        (hd10 m) (hd10 n) hmap)

/-- Deduplication commutes with mapping an injective function. -/
theorem dedup_map_of_injective {α β : Type} [DecidableEq α] [DecidableEq β]
    (f : α → β) (hf : Function.Injective f) (l : List α) :
    (l.map f).dedup = l.dedup.map f := by
  induction l with
  | nil => simp
  | cons x l ih =>
    by_cases hx : x ∈ l
    · rw [List.map_cons, List.dedup_cons_of_mem (List.mem_map_of_mem f hx),
        ih, List.dedup_cons_of_mem hx]
    · have hfx : f x ∉ l.map f := by
        intro hmem
        obtain ⟨a, ha, hfa⟩ := List.mem_map.mp hmem
        exact hx (hf hfa ▸ ha)
      rw [List.map_cons, List.dedup_cons_of_not_mem hfx, ih,
        List.dedup_cons_of_not_mem hx, List.map_cons]

/-- Claim C5: the repository scope holds no duplicate id strings, its size
is the number of distinct ids in the input list, and serialization joins
the id strings with a comma. -/
theorem scope_ids_nodup_distinct (repositories : List ZenhubRepository) :
    (scope_ids repositories).Nodup ∧
    (scope_ids repositories).length =
      ((repositories.map (fun x => x.gh_id)).dedup).length ∧
    ids_str repositories = String.intercalate "," (scope_ids repositories) := by
  refine ⟨List.nodup_dedup _, ?_, rfl⟩
  have hcomp : repositories.map (fun x => Nat.repr x.gh_id)
      = (repositories.map (fun x => x.gh_id)).map Nat.repr := by
    rw [List.map_map]
    rfl
  rw [scope_ids, hcomp, dedup_map_of_injective Nat.repr repr_injective,
    List.length_map]

end Zenhub
